import Mathlib

/-!
Verification development for the bag-scan backend (src/app.py).

The file embeds the Python source shallowly: the string primitives used by
the handlers (substring test, str.isdigit, float parsing, the TODAY regex
substitution), the import and classification pipeline, the persisted bags
table, and the HTTP handlers as pure functions over an explicit state.
Theorems at the end settle the specification claims against this embedding.
-/

/- ── Python string primitives ──────────────────────────────────────────── -/

/-- Character-level test that the first list is an initial segment of the second. -/
def startsWithL : List Char → List Char → Bool
  | [], _ => true
  | _ :: _, [] => false
  | p :: ps, c :: cs => p == c && startsWithL ps cs

/-- Substring containment on character lists, mirroring the Python membership
test on strings (an empty pattern is contained in every string). -/
def containsL (pat : List Char) : List Char → Bool
  | [] => pat.isEmpty
  | c :: cs => startsWithL pat (c :: cs) || containsL pat cs

/-- Substring containment on strings: pat occurs inside s. -/
def strContains (s pat : String) : Bool := containsL pat.data s.data

/-- The characters Python treats as whitespace in str.strip and re \s (ASCII range). -/
def isPyWS (c : Char) : Bool :=
  c == ' ' || c == '\t' || c == '\n' || c == '\r' || c == '\x0b' || c == '\x0c'

/-- Python str.strip(): remove leading and trailing whitespace. -/
def pyStrip (s : String) : String :=
  String.mk (((s.data.dropWhile isPyWS).reverse.dropWhile isPyWS).reverse)

/-- Python str.lower() (ASCII case mapping). -/
def pyLower (s : String) : String := String.mk (s.data.map Char.toLower)

/-- Python str.upper() (ASCII case mapping). -/
def pyUpper (s : String) : String := String.mk (s.data.map Char.toUpper)

/-- Python str.isdigit restricted to ASCII: nonempty and all characters are digits. -/
def pyIsDigit (s : String) : Bool := !s.data.isEmpty && s.data.all Char.isDigit

/-- Split off the maximal run of leading ASCII digits, returning its length and the rest. -/
def takeDigits : List Char → Nat × List Char
  | c :: cs =>
    if c.isDigit then
      let p := takeDigits cs
      (p.1 + 1, p.2)
    else (0, c :: cs)
  | [] => (0, [])

/-- Drop one leading sign character if present. -/
def dropSign : List Char → List Char
  | c :: cs => if c == '+' || c == '-' then cs else c :: cs
  | [] => []

/-- Accept an optional exponent part of a Python float literal followed by end of input. -/
def expOk : List Char → Bool
  | [] => true
  | c :: cs =>
    if c == 'e' || c == 'E' then
      let p := takeDigits (dropSign cs)
      decide (0 < p.1) && p.2.isEmpty
    else false

/-- Python float(s) succeeds on s: optional sign, then either a case-insensitive
inf, infinity or nan, or a mantissa (digits, optionally with one decimal point,
at least one digit overall) with an optional exponent.  Digit-group underscores
are not modelled; no claim exercises them. -/
def pyFloatOk (s : String) : Bool :=
  let cs := dropSign s.data
  let low := cs.map Char.toLower
  if low == "inf".data || low == "infinity".data || low == "nan".data then true
  else
    let p1 := takeDigits cs
    match p1.2 with
    | '.' :: r2 =>
      let p2 := takeDigits r2
      decide (0 < p1.1 + p2.1) && expOk p2.2
    | _ => decide (0 < p1.1) && expOk p1.2

/- ── classify_service (app.py lines 73-81) ─────────────────────────────── -/

/-- The classifier from app.py: s = str(v).strip(); if s.isdigit() the row is
Hang Dry; else if float(s) parses it is Wash and Fold; otherwise Wash and Fold
exactly when "lbs" occurs in s.lower(), else Hang Dry.  The argument is the
already-stringified cell value (a missing cell stringifies to "nan"). -/
def classify_service (v : String) : String :=
  if pyIsDigit (pyStrip v) then "Hang Dry"
  else if pyFloatOk (pyStrip v) then "Wash and Fold"
  else if strContains (pyLower (pyStrip v)) "lbs" then "Wash and Fold"
  else "Hang Dry"

/- ── The TODAY rush token (app.py lines 84-92) ─────────────────────────── -/

/-- Length of the maximal run of leading regex whitespace. -/
def countWS : List Char → Nat
  | c :: cs => if isPyWS c then countWS cs + 1 else 0
  | [] => 0

/-- Match the literal TODAY case-insensitively at the head of the list,
returning the remainder on success. -/
def matchTodayCore : List Char → Option (List Char)
  | c1 :: c2 :: c3 :: c4 :: c5 :: rest =>
    if c1.toUpper == 'T' && c2.toUpper == 'O' && c3.toUpper == 'D'
        && c4.toUpper == 'A' && c5.toUpper == 'Y' then some rest
    else none
  | _ => none

/-- Attempt to match the regex piece whitespace-run TODAY whitespace-run at the
head of the list; on success return how many characters the match consumed.
The whitespace runs are greedy, which agrees with backtracking here because no
whitespace character can begin TODAY. -/
def matchTodayLen (cs : List Char) : Option Nat :=
  let w1 := countWS cs
  match matchTodayCore (cs.drop w1) with
  | none => none
  | some rest => some (w1 + 5 + countWS rest)

/-- One left-to-right pass of re.sub with the TODAY pattern and empty
replacement: at each position, remove a match if one starts there, otherwise
keep the character.  Fuel bounds the recursion; every step consumes at least
one character, so fuel equal to the list length never runs out. -/
def subTodayFuel : Nat → List Char → List Char
  | _, [] => []
  | 0, cs => cs
  | fuel + 1, c :: cs =>
    match matchTodayLen (c :: cs) with
    | some n => subTodayFuel fuel ((c :: cs).drop n)
    | none => c :: subTodayFuel fuel cs

/-- app.py line 85: str.replace of the regex whitespace-TODAY-whitespace by the
empty string, case-insensitively, on the stringified date cell. -/
def stripToday (s : String) : String := String.mk (subTodayFuel s.data.length s.data)

/-- app.py line 88: the stringified date cell, uppercased, contains TODAY. -/
def hasTodayTok (s : String) : Bool := strContains (pyUpper s) "TODAY"

/- ── The import pipeline (app.py lines 53-113) ─────────────────────────── -/

/-- One spreadsheet row as pandas sees it after read_excel: one optional cell
per column; a missing value (NaN) is none. -/
structure Source where
  fileExists : Bool
  headers : List String
  rows : List (List (Option String))
deriving DecidableEq

/-- A row of the working DataFrame after column selection and dropna: the date
cell, the customer cell (both present, stringified) and the weight cell
stringified, with a missing weight stringifying to nan as str(float(nan)) does. -/
structure PRow where
  date : String
  customer : String
  wf : String
deriving DecidableEq

/-- Cell i of a row, none when the row is too short or the cell is missing. -/
def getCell (r : List (Option String)) (i : Nat) : Option String :=
  (r.get? i).getD none

/-- Header matching applies str.strip (from the rename) and then a
case-insensitive substring test, as in the next(...) generator expressions. -/
def headerKey (h : String) : String := pyLower (pyStrip h)

/-- app.py lines 65-67: resolve the date, customer and weight columns as the
first header containing date, customer, and wf or lbs respectively; none when
any of the three generators is exhausted (StopIteration). -/
def resolveCols (headers : List String) : Option (Nat × Nat × Nat) :=
  match headers.findIdx? (fun h => strContains (headerKey h) "date"),
      headers.findIdx? (fun h => strContains (headerKey h) "customer"),
      headers.findIdx? (fun h => strContains (headerKey h) "wf"
        || strContains (headerKey h) "lbs") with
  | some d, some n, some w => some (d, n, w)
  | _, _, _ => none

/-- app.py lines 65-70: column selection followed by dropna on Date and
Customer Name.  Rows keep their order; a row survives exactly when its date and
customer cells are present. -/
def processRows (headers : List String) (rows : List (List (Option String))) :
    Option (List PRow) :=
  match resolveCols headers with
  | none => none
  | some dnw =>
    some (rows.filterMap (fun r =>
      match getCell r dnw.1, getCell r dnw.2.1 with
      | some dv, some nv =>
        some { date := dv, customer := nv, wf := (getCell r dnw.2.2).getD "nan" }
      | _, _ => none))

/-- Canonical date of a row: the date cell with the TODAY token stripped. -/
def actualDate (d : String) : String := stripToday d

/-- app.py line 89: the canonical dates of the rows whose date cell carries the
TODAY token (the Python set is modelled as a list queried by membership). -/
def rushDays (prs : List PRow) : List String :=
  (prs.filter (fun p => hasTodayTok p.date)).map (fun p => actualDate p.date)

/-- app.py lines 90-92: a row is RUSH when its canonical date is among the rush
days of the batch, NON-RUSH otherwise. -/
def rushOf (prs : List PRow) (p : PRow) : String :=
  if (rushDays prs).contains (actualDate p.date) then "RUSH" else "NON-RUSH"

/-- The Rush column of the DataFrame. -/
def rushColOf (prs : List PRow) : List String := prs.map (rushOf prs)

/-- The Category column of the DataFrame. -/
def categoryColOf (prs : List PRow) : List String :=
  prs.map (fun p => classify_service p.wf)

/- ── Persisted state and the bags table ────────────────────────────────── -/

/-- One row of the bags table: name NVARCHAR(200) PRIMARY KEY, scanned BIT. -/
structure Bag where
  name : String
  scanned : Bool
deriving DecidableEq

/-- The whole mutable state of the process: the persisted bags table (none
models a dropped or never created table, whose queries raise) and the two
module-level in-memory fallback lists. -/
structure AppState where
  table : Option (List Bag)
  bag_list : List String
  scanned_bags : List String
deriving DecidableEq

/-- app.py lines 100-104: insert the names one by one into a fresh table with
scanned 0.  A name already present violates the primary key; the raised error
aborts the transaction, modelled as none. -/
def insertBags : List String → List Bag → Option (List Bag)
  | [], t => some t
  | n :: ns, t =>
    if t.any (fun b => b.name == n) then none
    else insertBags ns (t ++ [{ name := n, scanned := false }])

/-- Result of the import handler: 200 with a message, or 500 with the detail
string of the caught exception. -/
inductive ImportResult where
  | ok (message : String)
  | error (detail : String)
deriving DecidableEq

/-- The JSON keys of the body jsonify produces for each import outcome. -/
def importResponseKeys : ImportResult → List String
  | ImportResult.ok _ => ["message"]
  | ImportResult.error _ => ["error"]

/-- The spreadsheet path interpolated into the not-found message (the cwd part
of os.path.join is environment noise and omitted). -/
def xlsxPath : String := "testrunrinse.xlsx"

/-- Modelled detail string of the driver error raised when engine.begin cannot
reach the database. -/
def dbDownMsg : String := "database connection failed"

/-- Modelled detail string of the driver error raised by a duplicate insert
into the primary-key column. -/
def dupKeyMsg : String := "Violation of PRIMARY KEY constraint on bags"

/-- Detail of the column-resolution failure: str of a bare StopIteration is the
empty string. -/
def colErrMsg : String := ""

/-- app.py lines 53-113, the import-data handler.  dbUp tells whether the
database engine is reachable for this request.  Failures return the prior
state unchanged: the missing file and the column resolution fail before any
mutation, and a failed insert rolls the engine.begin transaction back.  On
success the table is rebuilt from scratch, bag_list becomes the imported
customer names and scanned_bags is cleared.  The Category and Rush columns the
handler computes are categoryColOf and rushColOf of the processed rows; the
handler persists only the names. -/
def import_data (dbUp : Bool) (src : Source) (st : AppState) :
    AppState × ImportResult :=
  if src.fileExists = false then
    (st, ImportResult.error ("Excel not found at " ++ xlsxPath))
  else
    match processRows src.headers src.rows with
    | none => (st, ImportResult.error colErrMsg)
    | some prs =>
      if dbUp = false then (st, ImportResult.error dbDownMsg)
      else
        match insertBags (prs.map (fun p => p.customer)) [] with
        | none => (st, ImportResult.error dupKeyMsg)
        | some tbl =>
          ({ table := some tbl, bag_list := prs.map (fun p => p.customer),
             scanned_bags := [] },
            ImportResult.ok ("Imported "
              ++ toString (prs.map (fun p => p.customer)).length ++ " bags"))

/- ── The status and bags handlers (app.py lines 35-50 and 116-130) ─────── -/

/-- Body of the status response. -/
structure StatusOut where
  total : Nat
  scanned : Nat
  remaining : Nat
deriving DecidableEq

/-- app.py lines 116-130: count rows and scanned rows in the table; when the
query raises (engine down or table missing) fall back to the in-memory lists,
where remaining is the list of names not yet in scanned_bags. -/
def status (dbUp : Bool) (st : AppState) : StatusOut :=
  match (if dbUp then st.table else none) with
  | some rows =>
    { total := rows.length
      scanned := (rows.filter (fun b => b.scanned)).length
      remaining := rows.length - (rows.filter (fun b => b.scanned)).length }
  | none =>
    { total := st.bag_list.length
      scanned := st.scanned_bags.length
      remaining := (st.bag_list.filter (fun n => !st.scanned_bags.contains n)).length }

/-- app.py lines 35-50: list every bag with its scan state, falling back to the
in-memory lists when the query raises. -/
def get_bags (dbUp : Bool) (st : AppState) : List (String × Bool) :=
  match (if dbUp then st.table else none) with
  | some rows => rows.map (fun b => (b.name, b.scanned))
  | none => st.bag_list.map (fun n => (n, st.scanned_bags.contains n))

/-- An HTTP response: a success body or an error body with a detail string. -/
inductive HttpResp (α : Type) where
  | ok (body : α)
  | err (detail : String)
deriving DecidableEq

/-- Whether a response is an error response. -/
def HttpResp.isErr {α : Type} : HttpResp α → Bool
  | HttpResp.ok _ => false
  | HttpResp.err _ => true

/-- The full status route: the try/except catches every exception and answers
from the fallback, so the handler always produces a 200 body. -/
def statusRoute (dbUp : Bool) (st : AppState) : HttpResp StatusOut :=
  HttpResp.ok (status dbUp st)

/-- The full bags route: likewise always a 200 body. -/
def bagsRoute (dbUp : Bool) (st : AppState) : HttpResp (List (String × Bool)) :=
  HttpResp.ok (get_bags dbUp st)

/- ── The scan handler (app.py lines 133-153) ───────────────────────────── -/

/-- Outcome of the scan handler: 200 with the confirmation message, a 400 with
one of the three error messages, or an unhandled exception (the handler has no
try/except, so a raising engine yields a bare 500). -/
inductive ScanResult where
  | ok (message : String)
  | errEmpty (message : String)
  | errNotFound (message : String)
  | errAlready (message : String)
  | crash
deriving DecidableEq

/-- app.py lines 133-153: strip the posted name; reject the empty name; count
matching rows (COUNT(*)); read the scanned flag of the first matching row
(scalar(), a missing row reading as the falsy None); reject an already scanned
bag; otherwise set scanned = 1 on every row with that name. -/
def scan (dbUp : Bool) (raw : String) (st : AppState) : AppState × ScanResult :=
  if pyStrip raw = "" then (st, ScanResult.errEmpty "No name provided.")
  else
    match (if dbUp then st.table else none) with
    | none => (st, ScanResult.crash)
    | some rows =>
      if (rows.filter (fun b => b.name == pyStrip raw)).length = 0 then
        (st, ScanResult.errNotFound (pyStrip raw ++ " is not in list."))
      else
        if ((rows.find? (fun b => b.name == pyStrip raw)).map Bag.scanned).getD false then
          (st, ScanResult.errAlready (pyStrip raw ++ " already scanned."))
        else
          ({ st with table := some (rows.map (fun b =>
              if b.name == pyStrip raw then { b with scanned := true } else b)) },
            ScanResult.ok (pyStrip raw ++ " scanned successfully!"))

/- ── Reachable states (a completed import, then any scans) ─────────────── -/

/-- The states the claims range over: any state produced by a completed run
of import_data (from an arbitrary prior state) followed by any sequence of
scan calls, where each request may find the database engine up or down. -/
inductive Reach : AppState → Prop
  | imported (dbUp : Bool) (src : Source) (s s2 : AppState) (m : String)
      (h : import_data dbUp src s = (s2, ImportResult.ok m)) : Reach s2
  | scanned (dbUp : Bool) (raw : String) (s s2 : AppState) (r : ScanResult)
      (hs : Reach s) (h : scan dbUp raw s = (s2, r)) : Reach s2

/- ── Concrete fixtures used by the closed theorems ─────────────────────── -/

/-- The three-row example source of the specification: dates 7/1 TODAY, 7/1 and
7/2, three distinct customers, a digit weight, a decimal weight and a missing
weight. -/
def srcEx : Source :=
  { fileExists := true
    headers := ["Date", "Customer", "WF/LBS"]
    rows := [[some "7/1 TODAY", some "A", some "20"],
             [some "7/1", some "B", some "15.5"],
             [some "7/2", some "C", none]] }

/-- A source whose two rows carry the same customer name. -/
def srcDup : Source :=
  { fileExists := true
    headers := ["Date", "Customer", "WF/LBS"]
    rows := [[some "7/1", some "A", some "20"],
             [some "7/2", some "A", some "30"]] }

/-- A one-row source with customer A. -/
def srcA : Source :=
  { fileExists := true
    headers := ["Date", "Customer", "WF/LBS"]
    rows := [[some "7/1", some "A", some "20"]] }

/-- An arbitrary prior state with a persisted table and populated fallback
lists, used to observe that failed imports leave it untouched. -/
def st0 : AppState :=
  { table := some [{ name := "Old", scanned := true }]
    bag_list := ["Old"]
    scanned_bags := ["X"] }

/- ── Helper lemmas ─────────────────────────────────────────────────────── -/

/-- A map whose function fixes every element of the list is the identity. -/
theorem map_noop {α : Type} (f : α → α) (l : List α) (h : ∀ x ∈ l, f x = x) :
    l.map f = l := by
  induction l with
  | nil => rfl
  | cons a t ih =>
    rw [List.map_cons, h a (List.mem_cons_self a t),
      ih (fun x hx => h x (List.mem_cons_of_mem a hx))]

/-- Counting two distinct values that exhaust a list accounts for its length. -/
theorem count_two_values : ∀ (l : List String) (a b : String), a ≠ b →
    (∀ x ∈ l, x = a ∨ x = b) → l.count a + l.count b = l.length := by
  intro l a b hab
  induction l with
  | nil => intro _; rfl
  | cons x xs ih =>
    intro h
    have ih2 := ih (fun y hy => h y (List.mem_cons_of_mem x hy))
    rcases h x (List.mem_cons_self x xs) with rfl | rfl
    · rw [List.count_cons_self, List.count_cons_of_ne (Ne.symm hab), List.length_cons]
      omega
    · rw [List.count_cons_self, List.count_cons_of_ne hab, List.length_cons]
      omega

/-- The classifier always lands in one of the two categories. -/
theorem classify_total (v : String) :
    classify_service v = "Hang Dry" ∨ classify_service v = "Wash and Fold" := by
  unfold classify_service
  split_ifs
  · left; rfl
  · right; rfl
  · right; rfl
  · left; rfl

/-- Sequential primary-key inserts fail whenever some name is already occupied
or the batch itself repeats a name. -/
theorem insertBags_none : ∀ (ns : List String) (t : List Bag),
    ((∃ n ∈ ns, ∃ b ∈ t, b.name = n) ∨ ¬ ns.Nodup) → insertBags ns t = none := by
  intro ns
  induction ns with
  | nil =>
    intro t h
    rcases h with ⟨n, hn, _⟩ | hnd
    · cases hn
    · exact absurd List.nodup_nil hnd
  | cons n ns ih =>
    intro t h
    unfold insertBags
    by_cases hc : t.any (fun b => b.name == n) = true
    · rw [if_pos hc]
    · rw [if_neg hc]
      have hc2 : ∀ b ∈ t, b.name ≠ n := by
        intro b hb he
        exact hc (List.any_eq_true.2 ⟨b, hb, by simp [he]⟩)
      apply ih
      rcases h with ⟨m, hm, b, hb, he⟩ | hnd
      · rcases List.mem_cons.1 hm with rfl | hm2
        · exact absurd he (hc2 b hb)
        · exact Or.inl ⟨m, hm2, b, List.mem_append_left _ hb, he⟩
      · by_cases hn2 : n ∈ ns
        · refine Or.inl ⟨n, hn2, { name := n, scanned := false },
            List.mem_append_right _ (List.mem_singleton.2 rfl), rfl⟩
        · exact Or.inr (fun hnd2 => hnd (List.nodup_cons.2 ⟨hn2, hnd2⟩))

/-- Shape of a successful import: the processed rows exist, their customer
names insert without collision, and the new state is exactly the rebuilt table
with the refreshed in-memory lists. -/
theorem import_ok_shape : ∀ (dbUp : Bool) (src : Source) (st st2 : AppState) (m : String),
    import_data dbUp src st = (st2, ImportResult.ok m) →
    ∃ prs tbl, processRows src.headers src.rows = some prs ∧
      insertBags (prs.map (fun p => p.customer)) [] = some tbl ∧
      st2 = { table := some tbl, bag_list := prs.map (fun p => p.customer),
              scanned_bags := [] } ∧
      m = "Imported " ++ toString (prs.map (fun p => p.customer)).length ++ " bags" := by
  intro dbUp src st st2 m h
  unfold import_data at h
  split at h
  · cases h
  · split at h
    · cases h
    · next prs hprs =>
      split at h
      · cases h
      · split at h
        · cases h
        · next tbl htbl =>
          injection h with h1 h2
          injection h2 with h3
          exact ⟨prs, tbl, hprs, htbl, h1.symm, h3.symm⟩

/-- A failed import leaves the state untouched. -/
theorem import_error_state : ∀ (dbUp : Bool) (src : Source) (st st2 : AppState) (d : String),
    import_data dbUp src st = (st2, ImportResult.error d) → st2 = st := by
  intro dbUp src st st2 d h
  unfold import_data at h
  split at h
  · injection h with h1 _; exact h1.symm
  · split at h
    · injection h with h1 _; exact h1.symm
    · split at h
      · injection h with h1 _; exact h1.symm
      · split at h
        · injection h with h1 _; exact h1.symm
        · cases h

/-- The scan handler never touches the in-memory lists. -/
theorem scan_keeps_lists : ∀ (dbUp : Bool) (raw : String) (st st2 : AppState) (r : ScanResult),
    scan dbUp raw st = (st2, r) →
    st2.bag_list = st.bag_list ∧ st2.scanned_bags = st.scanned_bags := by
  intro dbUp raw st st2 r h
  unfold scan at h
  split at h
  · injection h with h1 _; rw [← h1]; exact ⟨rfl, rfl⟩
  · split at h
    · injection h with h1 _; rw [← h1]; exact ⟨rfl, rfl⟩
    · split at h
      · injection h with h1 _; rw [← h1]; exact ⟨rfl, rfl⟩
      · split at h
        · injection h with h1 _; rw [← h1]; exact ⟨rfl, rfl⟩
        · injection h with h1 _; rw [← h1]; exact ⟨rfl, rfl⟩

/-- In a table whose names are pairwise distinct, find? on a name returns the
unique row carrying it. -/
theorem find_unique : ∀ (rows : List Bag) (k : String) (b : Bag),
    (rows.map Bag.name).Nodup → b ∈ rows → b.name = k →
    rows.find? (fun x => x.name == k) = some b := by
  intro rows
  induction rows with
  | nil => intro k b _ hb _; cases hb
  | cons a rs ih =>
    intro k b hnd hb hbk
    rw [List.map_cons, List.nodup_cons] at hnd
    rcases List.mem_cons.1 hb with rfl | hb2
    · rw [List.find?_cons_of_pos _ (by simp [hbk])]
    · have hak : a.name ≠ k := by
        intro he
        exact hnd.1 (by rw [he, ← hbk]; exact List.mem_map_of_mem Bag.name hb2)
      rw [List.find?_cons_of_neg _ (by simp [hak])]
      exact ih k b hnd.2 hb2 hbk

/-- A row carrying the looked-up name makes the COUNT query positive. -/
theorem filter_name_pos : ∀ (rows : List Bag) (k : String) (b : Bag),
    b ∈ rows → b.name = k →
    ¬ (rows.filter (fun x => x.name == k)).length = 0 := by
  intro rows k b hb hbk h0
  rw [List.length_eq_zero] at h0
  have hmem : b ∈ rows.filter (fun x => x.name == k) :=
    List.mem_filter.2 ⟨hb, by simp [hbk]⟩
  rw [h0] at hmem
  cases hmem

/-- Marking the unique unscanned row with a given name raises the scanned
count by exactly one. -/
theorem scanned_count_update : ∀ (rows : List Bag) (k : String) (b : Bag),
    (rows.map Bag.name).Nodup → b ∈ rows → b.name = k → b.scanned = false →
    ((rows.map (fun x => if x.name == k then { x with scanned := true } else x)).filter
        (fun x => x.scanned)).length
      = (rows.filter (fun x => x.scanned)).length + 1 := by
  intro rows
  induction rows with
  | nil => intro k b _ hb _ _; cases hb
  | cons a rs ih =>
    intro k b hnd hb hbk hsc
    rw [List.map_cons, List.nodup_cons] at hnd
    rcases List.mem_cons.1 hb with rfl | hb2
    · have hna : ∀ x ∈ rs, (x.name == k) = false := by
        intro x hx
        refine beq_eq_false_iff_ne.2 (fun he => hnd.1 ?_)
        rw [hbk, ← he]
        exact List.mem_map_of_mem Bag.name hx
      rw [List.map_cons, if_pos (by simp [hbk]),
        map_noop _ _ (fun x hx => by simp [hna x hx]),
        List.filter_cons, List.filter_cons, if_pos rfl, if_neg (by simp [hsc]),
        List.length_cons]
    · have hak : (a.name == k) = false := by
        refine beq_eq_false_iff_ne.2 (fun he => hnd.1 ?_)
        rw [he, ← hbk]
        exact List.mem_map_of_mem Bag.name hb2
      rw [List.map_cons, if_neg (by simp [hak]), List.filter_cons, List.filter_cons]
      by_cases hsa : a.scanned = true
      · rw [if_pos hsa, if_pos hsa, List.length_cons, List.length_cons,
          ih k b hnd.2 hb2 hbk hsc]
      · rw [if_neg hsa, if_neg hsa, ih k b hnd.2 hb2 hbk hsc]

/-- The scan update preserves the name column. -/
theorem map_update_names (rows : List Bag) (k : String) :
    (rows.map (fun x => if x.name == k then { x with scanned := true } else x)).map Bag.name
      = rows.map Bag.name := by
  rw [List.map_map]
  refine List.map_congr_left (fun x _ => ?_)
  by_cases hx : (x.name == k) = true
  · simp [Function.comp, hx]
  · simp [Function.comp, hx]

/-- Every reachable state has an empty scanned_bags list: import clears it and
scan never touches it. -/
theorem reach_scanned_nil : ∀ (st : AppState), Reach st → st.scanned_bags = [] := by
  intro st h
  induction h with
  | imported dbUp src s s2 m h =>
    obtain ⟨prs, tbl, _, _, hst, _⟩ := import_ok_shape dbUp src s s2 m h
    rw [hst]
  | scanned dbUp raw s s2 r hs h ih =>
    rw [(scan_keeps_lists dbUp raw s s2 r h).2, ih]

/- ── Claim theorems ────────────────────────────────────────────────────── -/

/-- Claim C1, counterexample: the claim says a weight field parsing as a
positive number yields Wash and Fold, naming the positive integer string 20 as
an example; the code classifies every all-digit string, 20 included, as Hang
Dry (the isdigit branch fires before the float branch). -/
theorem C1_counterexample :
    classify_service "20" = "Hang Dry" ∧ classify_service "20" ≠ "Wash and Fold" :=
  ⟨by decide, by decide⟩

/-- Claim C1 as amended: the derived category is Wash and Fold exactly when the
stripped weight string is not all digits and either parses as a Python float
(which includes 20.5, 0.0, -3 and the nan of a missing cell) or contains lbs
case-insensitively; every other value, in particular every all-digit string
such as 20 or 0 and every unparsable string without lbs, yields Hang Dry, and
the classifier never produces anything outside these two categories. -/
theorem classify_characterization :
    (∀ v : String, classify_service v = "Wash and Fold" ↔
      (pyIsDigit (pyStrip v) = false ∧
        (pyFloatOk (pyStrip v) = true ∨ strContains (pyLower (pyStrip v)) "lbs" = true)))
    ∧ (∀ v : String, classify_service v = "Hang Dry" ∨ classify_service v = "Wash and Fold") := by
  constructor
  · intro v
    unfold classify_service
    split_ifs with h1 h2 h3
    · constructor
      · intro h; exact absurd h (by decide)
      · intro h; rw [h1] at h; exact absurd h.1 (by decide)
    · constructor
      · intro _; exact ⟨by simpa using h1, Or.inl h2⟩
      · intro _; rfl
    · constructor
      · intro _; exact ⟨by simpa using h1, Or.inr h3⟩
      · intro _; rfl
    · constructor
      · intro h; exact absurd h (by decide)
      · intro h
        rcases h.2 with hf | hl
        · exact absurd hf h2
        · exact absurd hl h3
  · exact classify_total

/-- Witness for the amended C1 at the concrete weight 20.5. -/
theorem classify_characterization_witness :
    pyIsDigit (pyStrip "20.5") = false ∧
      (pyFloatOk (pyStrip "20.5") = true
        ∨ strContains (pyLower (pyStrip "20.5")) "lbs" = true) :=
  (classify_characterization.1 "20.5").mp (by decide)

/-- The state reached by importing the example source. -/
def stEx1 : AppState :=
  { table := some [⟨"A", false⟩, ⟨"B", false⟩, ⟨"C", false⟩],
    bag_list := ["A", "B", "C"], scanned_bags := [] }

/-- The processed rows of the example source. -/
def prsEx : List PRow :=
  [⟨"7/1 TODAY", "A", "20"⟩, ⟨"7/1", "B", "15.5"⟩, ⟨"7/2", "C", "nan"⟩]

/-- Claim C2, counterexample: a successful import answers with a body holding
the single key message; the rush, non-rush and hang-dry counts the claim
requires are not part of the summary. -/
theorem C2_counterexample :
    (import_data true srcEx st0).2 = ImportResult.ok "Imported 3 bags" ∧
      importResponseKeys (import_data true srcEx st0).2 = ["message"] ∧
      ¬ "rush" ∈ importResponseKeys (import_data true srcEx st0).2 ∧
      ¬ "non_rush" ∈ importResponseKeys (import_data true srcEx st0).2 ∧
      ¬ "hang_dry" ∈ importResponseKeys (import_data true srcEx st0).2 :=
  ⟨by decide, by decide, by decide, by decide, by decide⟩

/-- Claim C2 as amended: a successful import returns only a message carrying
the total number of imported rows; no count fields are present in the body.
Internally each processed row is classified RUSH or NON-RUSH and Hang Dry or
Wash and Fold, so the identities total = rush + non-rush and
total = hang-dry + wash-and-fold hold of the classified columns. -/
theorem import_summary_shape (dbUp : Bool) (src : Source) (st st2 : AppState) (m : String)
    (h : import_data dbUp src st = (st2, ImportResult.ok m)) :
    ∃ prs, processRows src.headers src.rows = some prs ∧
      m = "Imported " ++ toString prs.length ++ " bags" ∧
      importResponseKeys (ImportResult.ok m) = ["message"] ∧
      (rushColOf prs).count "RUSH" + (rushColOf prs).count "NON-RUSH" = prs.length ∧
      (categoryColOf prs).count "Hang Dry" + (categoryColOf prs).count "Wash and Fold"
        = prs.length := by
  obtain ⟨prs, tbl, hp, hi, hst, hm⟩ := import_ok_shape dbUp src st st2 m h
  have hr : ∀ x ∈ rushColOf prs, x = "RUSH" ∨ x = "NON-RUSH" := by
    intro x hx
    rcases List.mem_map.1 hx with ⟨p, _, rfl⟩
    unfold rushOf
    split
    · exact Or.inl rfl
    · exact Or.inr rfl
  have hc : ∀ x ∈ categoryColOf prs, x = "Hang Dry" ∨ x = "Wash and Fold" := by
    intro x hx
    rcases List.mem_map.1 hx with ⟨p, _, rfl⟩
    exact classify_total p.wf
  refine ⟨prs, hp, ?_, rfl, ?_, ?_⟩
  · rw [hm, List.length_map]
  · rw [count_two_values _ _ _ (by decide) hr]
    exact List.length_map prs (rushOf prs)
  · rw [count_two_values _ _ _ (by decide) hc]
    exact List.length_map prs (fun p => classify_service p.wf)

/-- Witness for the amended C2 on the example import: the two count identities
at the concrete processed rows. -/
theorem import_summary_shape_witness :
    (rushColOf prsEx).count "RUSH" + (rushColOf prsEx).count "NON-RUSH" = prsEx.length ∧
      (categoryColOf prsEx).count "Hang Dry"
        + (categoryColOf prsEx).count "Wash and Fold" = prsEx.length := by
  obtain ⟨prs, hp, -, -, h4, h5⟩ :=
    import_summary_shape true srcEx st0 stEx1 "Imported 3 bags" (by decide)
  have h6 : some prs = some prsEx := by rw [← hp]; decide
  injection h6 with e
  subst e
  exact ⟨h4, h5⟩

/-- Claim C3, counterexample: importing a source whose two rows both name
customer A does not succeed: the second insert violates the primary key on
bags.name, the handler answers 500 and nothing is persisted (the prior state
st0 survives unchanged). -/
theorem C3_counterexample :
    import_data true srcDup st0 = (st0, ImportResult.error dupKeyMsg) ∧
      importResponseKeys (import_data true srcDup st0).2 = ["error"] :=
  ⟨by decide, by decide⟩

/-- Claim C3 as amended: importing a source in which two or more rows carry the
same customer name fails with a primary-key error and persists nothing; the
prior table and in-memory lists are left as they were. -/
theorem import_duplicate_names_fail (src : Source) (st : AppState) (prs : List PRow)
    (hfile : src.fileExists = true)
    (hproc : processRows src.headers src.rows = some prs)
    (hdup : ¬ (prs.map (fun p => p.customer)).Nodup) :
    import_data true src st = (st, ImportResult.error dupKeyMsg) := by
  have hins : insertBags (prs.map (fun p => p.customer)) [] = none :=
    insertBags_none _ _ (Or.inr hdup)
  unfold import_data
  rw [hfile]
  simp only [Bool.true_eq_false, if_false, hproc, hins]

/-- Witness for the amended C3 at the concrete duplicate source. -/
theorem import_duplicate_names_fail_witness :
    import_data true srcDup st0 = (st0, ImportResult.error dupKeyMsg) :=
  import_duplicate_names_fail srcDup st0
    [⟨"7/1", "A", "20"⟩, ⟨"7/2", "A", "30"⟩] (by decide) (by decide) (by decide)

/-- Claim C4: import is all-or-nothing.  Any failing attempt (missing file,
unresolvable columns, unreachable database, key collision during the rebuild
transaction) returns the prior table and in-memory lists untouched; a
successful attempt replaces the state wholesale with the rebuilt table, the
fresh name list and an empty scanned list. -/
theorem import_atomicity (dbUp : Bool) (src : Source) (st st2 : AppState) (r : ImportResult)
    (h : import_data dbUp src st = (st2, r)) :
    ((∃ d, r = ImportResult.error d) → st2 = st)
    ∧ (∀ m, r = ImportResult.ok m →
      ∃ prs tbl, processRows src.headers src.rows = some prs ∧
        insertBags (prs.map (fun p => p.customer)) [] = some tbl ∧
        st2 = { table := some tbl, bag_list := prs.map (fun p => p.customer),
                scanned_bags := [] }) := by
  constructor
  · rintro ⟨d, rfl⟩
    exact import_error_state dbUp src st st2 d h
  · rintro m rfl
    obtain ⟨prs, tbl, hp, hi, hst, -⟩ := import_ok_shape dbUp src st st2 m h
    exact ⟨prs, tbl, hp, hi, hst⟩

/-- Witness for C4: the attempt against a down database leaves st0 intact. -/
theorem import_atomicity_witness : (import_data false srcEx st0).1 = st0 :=
  (import_atomicity false srcEx st0 (import_data false srcEx st0).1
      (ImportResult.error dbDownMsg) (by decide)).1 ⟨dbDownMsg, rfl⟩

/-- Claim C6: a processed row is RUSH exactly when its own date cell carries
the TODAY token or its canonical date (the cell with the token stripped)
equals the canonical date of some row that carries the token; on the
three-row example with dates 7/1 TODAY, 7/1 and 7/2 the Rush column is RUSH,
RUSH, NON-RUSH. -/
theorem rush_iff_spec :
    (∀ (prs : List PRow) (p : PRow), p ∈ prs →
      (rushOf prs p = "RUSH" ↔
        (hasTodayTok p.date = true ∨
          ∃ q ∈ prs, hasTodayTok q.date = true ∧ actualDate q.date = actualDate p.date)))
    ∧ Option.map rushColOf (processRows srcEx.headers srcEx.rows)
        = some ["RUSH", "RUSH", "NON-RUSH"] := by
  constructor
  · intro prs p hp
    have hmem : (rushDays prs).contains (actualDate p.date) = true ↔
        ∃ q ∈ prs, hasTodayTok q.date = true ∧ actualDate q.date = actualDate p.date := by
      rw [List.elem_iff]
      unfold rushDays
      constructor
      · intro hin
        rcases List.mem_map.1 hin with ⟨q, hq, he⟩
        rcases List.mem_filter.1 hq with ⟨hq2, hq3⟩
        exact ⟨q, hq2, hq3, he⟩
      · rintro ⟨q, hq, ht, he⟩
        exact List.mem_map.2 ⟨q, List.mem_filter.2 ⟨hq, ht⟩, he⟩
    unfold rushOf
    by_cases hcon : (rushDays prs).contains (actualDate p.date) = true
    · rw [if_pos hcon]
      exact ⟨fun _ => Or.inr (hmem.1 hcon), fun _ => rfl⟩
    · rw [if_neg hcon]
      constructor
      · intro h; exact absurd h (by decide)
      · rintro (ht | hex)
        · exact absurd (hmem.2 ⟨p, hp, ht, rfl⟩) hcon
        · exact absurd (hmem.2 hex) hcon
  · decide

/-- Witness for C6: the iff instantiated at the first example row within the
processed example batch. -/
theorem rush_iff_spec_witness :
    rushOf prsEx ⟨"7/1 TODAY", "A", "20"⟩ = "RUSH" ↔
      (hasTodayTok "7/1 TODAY" = true ∨
        ∃ q ∈ prsEx, hasTodayTok q.date = true
          ∧ actualDate q.date = actualDate "7/1 TODAY") :=
  rush_iff_spec.1 prsEx ⟨"7/1 TODAY", "A", "20"⟩ (by decide)

/-- Evaluation of the scan handler on a reachable table: with a nonempty
stripped key and a live engine, scan reduces to the three-way decision on the
filtered count, the scanned flag of the first match, and the update. -/
theorem scan_eval (st : AppState) (rows : List Bag) (k : String)
    (htab : st.table = some rows) (hk : pyStrip k = k) (hne : ¬ k = "") :
    scan true k st =
      (if (rows.filter (fun b => b.name == k)).length = 0 then
        (st, ScanResult.errNotFound (k ++ " is not in list."))
      else if ((rows.find? (fun b => b.name == k)).map Bag.scanned).getD false then
        (st, ScanResult.errAlready (k ++ " already scanned."))
      else
        ({ st with table := some (rows.map (fun b =>
            if b.name == k then { b with scanned := true } else b)) },
          ScanResult.ok (k ++ " scanned successfully!"))) := by
  obtain ⟨tab, bl, sb⟩ := st
  simp only at htab
  subst htab
  unfold scan
  rw [hk, if_neg hne]
  rfl

/-- Claim C5, counterexample: after an import of customer A and one scan of A,
the key A is present in the table, yet scanning it twice from that state does
not make the first call succeed: the first call already fails with the
already-scanned error. -/
theorem C5_counterexample :
    ((scan true "A" (import_data true srcA st0).1).1).table = some [⟨"A", true⟩] ∧
      (scan true "A" (scan true "A" (import_data true srcA st0).1).1).2
        = ScanResult.errAlready "A already scanned." :=
  ⟨by decide, by decide⟩

/-- Claim C5 as amended: for a key present in the table whose row is not yet
scanned, scanning it twice in sequence makes the first call succeed (flipping
scanned to true and returning the confirmation carrying the display name) and
the second call fail with the already-scanned error while leaving the state
unchanged, the scanned count having risen by exactly one; and scanning a key
not present in the table fails with the not-in-list error and mutates
nothing. -/
theorem scan_twice_spec (st : AppState) (rows : List Bag) (k : String)
    (htab : st.table = some rows) (hnd : (rows.map Bag.name).Nodup)
    (hk : pyStrip k = k) (hne : ¬ k = "") :
    ((∃ b ∈ rows, b.name = k ∧ b.scanned = false) →
      ∃ st2, scan true k st = (st2, ScanResult.ok (k ++ " scanned successfully!")) ∧
        scan true k st2 = (st2, ScanResult.errAlready (k ++ " already scanned.")) ∧
        ∃ rows2, st2.table = some rows2 ∧
          (rows2.filter (fun b => b.scanned)).length
            = (rows.filter (fun b => b.scanned)).length + 1)
    ∧ ((∀ b ∈ rows, ¬ b.name = k) →
      scan true k st = (st, ScanResult.errNotFound (k ++ " is not in list."))) := by
  constructor
  · rintro ⟨b, hb, hbk, hsc⟩
    have hfind := find_unique rows k b hnd hb hbk
    have hflt := filter_name_pos rows k b hb hbk
    refine ⟨{ st with table := some (rows.map (fun x =>
      if x.name == k then { x with scanned := true } else x)) }, ?_, ?_, ?_⟩
    · rw [scan_eval st rows k htab hk hne, if_neg hflt,
        show ((rows.find? (fun x => x.name == k)).map Bag.scanned).getD false = b.scanned
          from by rw [hfind]; rfl,
        hsc, if_neg (by decide)]
    · have hnd2 : ((rows.map (fun x =>
          if x.name == k then { x with scanned := true } else x)).map Bag.name).Nodup := by
        rw [map_update_names]; exact hnd
      have hb2 : ({ name := b.name, scanned := true } : Bag) ∈ rows.map (fun x =>
          if x.name == k then { x with scanned := true } else x) :=
        List.mem_map.2 ⟨b, hb, by simp [hbk]⟩
      have hfind2 := find_unique _ k { name := b.name, scanned := true } hnd2 hb2 hbk
      have hflt2 := filter_name_pos _ k { name := b.name, scanned := true } hb2 hbk
      rw [scan_eval _ _ k rfl hk hne, if_neg hflt2,
        show (((rows.map (fun x => if x.name == k then { x with scanned := true } else x)).find?
            (fun x => x.name == k)).map Bag.scanned).getD false = true
          from by rw [hfind2]; rfl,
        if_pos rfl]
    · exact ⟨_, rfl, scanned_count_update rows k b hnd hb hbk hsc⟩
  · intro hall
    have hfe : rows.filter (fun x => x.name == k) = [] :=
      List.filter_eq_nil_iff.2 (fun b hb => by simp [hall b hb])
    rw [scan_eval st rows k htab hk hne, if_pos (by rw [hfe]; rfl)]

/-- A two-bag table used by the scan witnesses. -/
def stW : AppState :=
  { table := some [⟨"A", false⟩, ⟨"B", false⟩], bag_list := ["A", "B"], scanned_bags := [] }

/-- The state after scanning A in stW. -/
def stW2 : AppState :=
  { table := some [⟨"A", true⟩, ⟨"B", false⟩], bag_list := ["A", "B"], scanned_bags := [] }

/-- Witness for the amended C5 at the concrete key A in stW. -/
theorem scan_twice_spec_witness :
    scan true "A" stW = (stW2, ScanResult.ok "A scanned successfully!") ∧
      scan true "A" stW2 = (stW2, ScanResult.errAlready "A already scanned.") := by
  obtain ⟨st2, h1, h2, -⟩ :=
    (scan_twice_spec stW [⟨"A", false⟩, ⟨"B", false⟩] "A" rfl (by decide) (by decide)
      (by decide)).1 (by decide)
  have h3 : (st2, ScanResult.ok ("A" ++ " scanned successfully!"))
      = (stW2, ScanResult.ok ("A" ++ " scanned successfully!")) := by
    rw [← h1]; decide
  injection h3 with e _
  subst e
  exact ⟨h1, h2⟩

/-- Claim C8: in every reachable state, on the database path and on the
in-memory fallback path alike, the status triple satisfies
remaining = total - scanned (and scanned never exceeds total). -/
theorem status_remaining_invariant (st : AppState) (h : Reach st) (dbUp : Bool) :
    (status dbUp st).scanned ≤ (status dbUp st).total ∧
      (status dbUp st).remaining = (status dbUp st).total - (status dbUp st).scanned := by
  have hnil : st.scanned_bags = [] := reach_scanned_nil st h
  unfold status
  cases hdb : (if dbUp then st.table else none) with
  | some rows => exact ⟨List.length_filter_le _ _, rfl⟩
  | none =>
    rw [hnil]
    constructor
    · exact Nat.zero_le _
    · have : st.bag_list.filter (fun n => !(([] : List String).contains n))
          = st.bag_list := by
        rw [show (fun n => !(([] : List String).contains n)) = (fun _ => true) from rfl,
          List.filter_true]
      rw [this]
      rfl

/-- Witness for C8: the state reached by importing the example source, queried
while the engine is down, exercising the fallback path. -/
theorem status_remaining_invariant_witness :
    (status false stEx1).remaining = (status false stEx1).total - (status false stEx1).scanned :=
  (status_remaining_invariant stEx1
    (Reach.imported true srcEx st0 stEx1 "Imported 3 bags" (by decide)) false).2

/-- A state whose table says A was scanned, observed while the engine is
unreachable. -/
def stDown : AppState :=
  { table := some [⟨"A", true⟩], bag_list := ["A"], scanned_bags := [] }

/-- Claim C9, counterexample: a persistence read failure during GET /bags or
GET /status (engine down, first argument false) is not surfaced: both handlers
silently fall back to the in-memory lists and answer 200 — here even claiming
the already scanned bag A is unscanned — instead of returning any structured
error. -/
theorem C9_counterexample :
    HttpResp.isErr (bagsRoute false stDown) = false ∧
      HttpResp.isErr (statusRoute false stDown) = false ∧
      bagsRoute false stDown = HttpResp.ok [("A", false)] ∧
      statusRoute false stDown = HttpResp.ok { total := 1, scanned := 0, remaining := 1 } :=
  ⟨by decide, by decide, by decide, by decide⟩

/-- Claim C9 as amended: import failures are surfaced to the caller as an
error body with a detail string (here shown for every attempt made while the
store is unreachable), but persistence read failures during GET /bags and
GET /status are silently swallowed: those two handlers never produce an error
response, always answering 200 from the table or the fallback lists. -/
theorem error_surfacing_amended :
    (∀ (dbUp : Bool) (st : AppState), HttpResp.isErr (bagsRoute dbUp st) = false)
    ∧ (∀ (dbUp : Bool) (st : AppState), HttpResp.isErr (statusRoute dbUp st) = false)
    ∧ (∀ (src : Source) (st : AppState),
        ∃ d, (import_data false src st).2 = ImportResult.error d) := by
  refine ⟨fun _ _ => rfl, fun _ _ => rfl, ?_⟩
  intro src st
  unfold import_data
  split
  · exact ⟨"Excel not found at " ++ xlsxPath, rfl⟩
  · cases hp : processRows src.headers src.rows with
    | none => exact ⟨colErrMsg, rfl⟩
    | some prs => exact ⟨dbDownMsg, rfl⟩

/-- Claim C10: a successful scan changes nothing except the scanned flag of
the targeted row.  The in-memory lists are untouched, the table is the
pointwise image that rewrites only rows named by the stripped key, every
differently named row is mapped to itself, and every row carrying the key was
unscanned before the call (and is scanned after it). -/
theorem scan_frame (dbUp : Bool) (raw : String) (st st2 : AppState) (m : String)
    (hnd : ∀ rows, st.table = some rows → (rows.map Bag.name).Nodup)
    (h : scan dbUp raw st = (st2, ScanResult.ok m)) :
    st2.bag_list = st.bag_list ∧ st2.scanned_bags = st.scanned_bags ∧
    ∃ rows, st.table = some rows ∧
      st2.table = some (rows.map (fun b =>
        if b.name == pyStrip raw then { b with scanned := true } else b)) ∧
      (∀ b ∈ rows, ¬ b.name = pyStrip raw →
        (if b.name == pyStrip raw then { b with scanned := true } else b) = b) ∧
      (∀ b ∈ rows, b.name = pyStrip raw → b.scanned = false) := by
  cases dbUp with
  | false =>
    unfold scan at h
    split at h
    · injection h with h1 h2; nomatch h2
    · injection h with h1 h2; nomatch h2
  | true =>
    unfold scan at h
    split at h
    · injection h with h1 h2; nomatch h2
    · split at h
      · injection h with h1 h2; nomatch h2
      · next rows heq =>
        have htab : st.table = some rows := heq
        split at h
        · injection h with h1 h2; nomatch h2
        · split at h
          · injection h with h1 h2; nomatch h2
          · next halready =>
            injection h with h1 h2
            subst h1
            refine ⟨rfl, rfl, rows, htab, rfl, ?_, ?_⟩
            · intro b hb hbne
              rw [if_neg (by simp [hbne])]
            · intro b hb hbk
              have hfind := find_unique rows (pyStrip raw) b (hnd rows htab) hb hbk
              rw [hfind] at halready
              simpa using halready

/-- Witness for C10 at the concrete scan of A in stW. -/
theorem scan_frame_witness :
    stW2.bag_list = stW.bag_list ∧ stW2.scanned_bags = stW.scanned_bags ∧
      stW2.table = some (([⟨"A", false⟩, ⟨"B", false⟩] : List Bag).map (fun b =>
        if b.name == pyStrip "A" then { b with scanned := true } else b)) := by
  obtain ⟨h1, h2, rows, h3, h4, -, -⟩ :=
    scan_frame true "A" stW stW2 "A scanned successfully!"
      (by
        intro rows hr
        rw [show stW.table = some [⟨"A", false⟩, ⟨"B", false⟩] from rfl] at hr
        injection hr with e
        rw [← e]
        decide)
      (by decide)
  have e : rows = [⟨"A", false⟩, ⟨"B", false⟩] := by
    rw [show stW.table = some [⟨"A", false⟩, ⟨"B", false⟩] from rfl] at h3
    injection h3 with e
    exact e.symm
  subst e
  exact ⟨h1, h2, h4⟩

/- ── Name resolution from OCR text (spec section 4.4) ──────────────────── -/

/-- Modelled from the spec: the name-matching logic is missing from
src/app.py — line 184 only carries the placeholder comment "reuse your
matching logic here" and line 185 returns the undefined names customer and
order_type — so the resolution functions below follow the words of
specification section 4.4.  Words of a string, split on whitespace runs. -/
def wordsAux : List Char → List Char → List (List Char)
  | [], acc => if acc.isEmpty then [] else [acc.reverse]
  | c :: cs, acc =>
    if isPyWS c then
      if acc.isEmpty then wordsAux cs [] else acc.reverse :: wordsAux cs []
    else wordsAux cs (c :: acc)

/-- Modelled from the spec: the whitespace-delimited words of a name. -/
def wordsOf (s : String) : List String := (wordsAux s.data []).map String.mk

/-- Modelled from the spec: case-insensitive substring containment. -/
def containsCI (hay needle : String) : Bool := strContains (pyLower hay) (pyLower needle)

/-- Modelled from the spec, primary rule of section 4.4: a known name matches
when every whitespace-delimited word of it appears, case-insensitively, as a
substring of at least one extracted line. -/
def nameMatches (nm : String) (ls : List String) : Bool :=
  (wordsOf nm).all (fun w => ls.any (fun l => containsCI l w))

/-- Modelled from the spec: a line consisting solely of alphabetic characters
and spaces, and nonempty. -/
def isAlphaSpace (s : String) : Bool :=
  !s.data.isEmpty && s.data.all (fun c => c.isAlpha || c == ' ')

/-- Modelled from the spec: title-case one word. -/
def capWord (w : String) : String :=
  match w.data with
  | [] => ""
  | c :: t => String.mk (c.toUpper :: t.map Char.toLower)

/-- Modelled from the spec: title-case a line word by word. -/
def titleCase (s : String) : String := String.intercalate " " ((wordsOf s).map capWord)

/-- Modelled from the spec: fallback when no known name matches — join the
first two purely alphabetic lines, title-cased, or the sentinel UNKNOWN. -/
def fallbackName (ls : List String) : String :=
  if ((ls.filter isAlphaSpace).take 2).isEmpty then "UNKNOWN"
  else String.intercalate " " (((ls.filter isAlphaSpace).take 2).map titleCase)

/-- Modelled from the spec: resolution returns the first known name (in table
order) satisfying the primary rule, else the fallback guess. -/
def resolveName (known ls : List String) : String :=
  match known.find? (fun nm => nameMatches nm ls) with
  | some nm => nm
  | none => fallbackName ls

/-- Modelled from the spec: the fixed vocabulary of order-type labels. -/
def orderVocab : List String := ["hang dry", "wash & fold"]

/-- Modelled from the spec: the first extracted line equal, case-insensitively,
to a vocabulary label, else UNKNOWN. -/
def resolveOrderType (ls : List String) : String :=
  match ls.find? (fun l => orderVocab.contains (pyLower l)) with
  | some l => l
  | none => "UNKNOWN"

/-- Claim C7: whenever some known name has every one of its words appearing,
case-insensitively, as a substring of an extracted line, resolution returns a
known name; on the example with known name Jane Doe and lines JANE,
DOE LAUNDRY, HANG DRY, it returns Jane Doe with order type HANG DRY. -/
theorem ocr_resolution_spec :
    (∀ (known ls : List String) (nm : String), nm ∈ known → nameMatches nm ls = true →
      resolveName known ls ∈ known)
    ∧ resolveName ["Jane Doe"] ["JANE", "DOE LAUNDRY", "HANG DRY"] = "Jane Doe"
    ∧ resolveOrderType ["JANE", "DOE LAUNDRY", "HANG DRY"] = "HANG DRY" := by
  refine ⟨?_, by decide, by decide⟩
  intro known ls nm hmem hmatch
  unfold resolveName
  cases hf : known.find? (fun x => nameMatches x ls) with
  | some x => exact List.mem_of_find?_eq_some hf
  | none =>
    have := List.find?_eq_none.1 hf nm hmem
    exact absurd hmatch this

/-- Witness for C7 on the example input. -/
theorem ocr_resolution_spec_witness :
    resolveName ["Jane Doe"] ["JANE", "DOE LAUNDRY", "HANG DRY"] ∈ (["Jane Doe"] : List String) :=
  ocr_resolution_spec.1 ["Jane Doe"] ["JANE", "DOE LAUNDRY", "HANG DRY"] "Jane Doe"
    (by decide) (by decide)
